import Mathlib

/-!
# Verification of the tensorflow_hub cache-population core (`resolver.py`)

This file gives a shallow embedding of the distributed cache-population
protocol of `tensorflow_hub/resolver.py`: the pure lock-record and path
helpers, the staleness monitor `_wait_for_lock_to_disappear`, the progress
reporter of `DownloadManager`, the orchestrator `atomic_download`, and the
cache-directory resolution `tfhub_cache_dir`.

Effects are modelled explicitly: the filesystem is a pair of association
lists (regular files with string contents, and directories with their entry
names), fallible storage primitives return `Except`, wall-clock readings and
the outcomes of the caller-supplied download callback or of injected backend
failures are passed in as explicit arguments, and each run of the
orchestrator additionally produces a trace of the externally visible actions
it performed.
-/

/-- The `tf.errors` error classes (subclasses of `tf.errors.OpError`)
that the orchestrator distinguishes. -/
inductive TFErr where
  | notFound
  | permissionDenied
  | unauthenticated
  | resourceExhausted
  | internalErr
  | invalidArgument
  | unimplementedErr
  | alreadyExists
  | abortedErr
  | unavailable
  | deadlineExceeded
  | unknownErr
deriving DecidableEq, Repr

/-- The error classes listed at resolver.py lines 395-401: lock-creation
failures of these classes are re-raised ("permanent problems with the
module_dir"); every other `OpError` is swallowed and retried. -/
def TFErr.isPermanentLockFailure : TFErr → Bool
  | .notFound => true
  | .permissionDenied => true
  | .unauthenticated => true
  | .resourceExhausted => true
  | .internalErr => true
  | .invalidArgument => true
  | .unimplementedErr => true
  | _ => false

/-- Python exception universe for the embedding: `op e` is a
`tf.errors.OpError` of class `e`; `ioErr` is the builtin generic
`IOError`/`OSError`; `tarReadError` is `tarfile.ReadError`;
`valueErr`/`keyboardInterrupt`/`otherErr` cover the remaining exceptions a
download callback may raise. -/
inductive PyErr where
  | op (e : TFErr)
  | ioErr (msg : String)
  | tarReadError
  | valueErr (msg : String)
  | keyboardInterrupt
  | otherErr (msg : String)
deriving DecidableEq, Repr

/-! ## Association-list maps used by the filesystem model -/

/-- Lookup in an association list keyed by strings. -/
def lookupAssoc {α : Type} : List (String × α) → String → Option α
  | [], _ => none
  | (k, v) :: rest, key => if key = k then some v else lookupAssoc rest key

/-- Remove a binding (no-op when absent). -/
def removeAssoc {α : Type} : List (String × α) → String → List (String × α)
  | [], _ => []
  | e :: rest, k => if e.1 = k then removeAssoc rest k else e :: removeAssoc rest k

/-- Insert or replace a binding. -/
def setAssoc {α : Type} (l : List (String × α)) (k : String) (v : α) :
    List (String × α) :=
  (k, v) :: removeAssoc l k

@[simp] theorem lookupAssoc_remove_self {α : Type} (l : List (String × α))
    (k : String) : lookupAssoc (removeAssoc l k) k = none := by
  induction l with
  | nil => rfl
  | cons e rest ih =>
    by_cases hek : e.1 = k
    · simpa [removeAssoc, hek] using ih
    · simpa [removeAssoc, hek, lookupAssoc, Ne.symm hek] using ih

theorem lookupAssoc_remove_other {α : Type} (l : List (String × α))
    (k key : String) (h : key ≠ k) :
    lookupAssoc (removeAssoc l k) key = lookupAssoc l key := by
  induction l with
  | nil => rfl
  | cons e rest ih =>
    by_cases hek : e.1 = k
    · have : ¬ (key = e.1) := fun hk => h (hk.trans hek)
      simp [removeAssoc, hek, lookupAssoc, this, h, ih]
    · by_cases hkey : key = e.1
      · simp [removeAssoc, hek, lookupAssoc, hkey]
      · simp [removeAssoc, hek, lookupAssoc, hkey, ih]

@[simp] theorem lookupAssoc_set_self {α : Type} (l : List (String × α))
    (k : String) (v : α) : lookupAssoc (setAssoc l k v) k = some v := by
  simp [setAssoc, lookupAssoc]

theorem lookupAssoc_set_other {α : Type} (l : List (String × α))
    (k key : String) (v : α) (h : key ≠ k) :
    lookupAssoc (setAssoc l k v) key = lookupAssoc l key := by
  simp [setAssoc, lookupAssoc, h, lookupAssoc_remove_other l k key h]

/-! ## Filesystem model

The backend namespace (`tf.compat.v1.gfile`) is modelled as two finite maps:
regular files (path to string content) and directories (path to the list of
entry names, which is all `ListDirectory`/`Rename` need). -/

structure FS where
  files : List (String × String)
  dirs : List (String × List String)
deriving DecidableEq, Repr

def FS.lookupFile (fs : FS) (p : String) : Option String := lookupAssoc fs.files p

def FS.lookupDir (fs : FS) (p : String) : Option (List String) := lookupAssoc fs.dirs p

/-- `tf.compat.v1.gfile.Exists`: true when a file or a directory is present. -/
def FS.existsPath (fs : FS) (p : String) : Bool :=
  (fs.lookupFile p).isSome || (fs.lookupDir p).isSome

/-- Write (create or replace) a regular file. -/
def FS.setFile (fs : FS) (p content : String) : FS :=
  ⟨setAssoc fs.files p content, fs.dirs⟩

/-- `tf.compat.v1.gfile.Remove` on a file (caller handles absence). -/
def FS.removeFile (fs : FS) (p : String) : FS :=
  ⟨removeAssoc fs.files p, fs.dirs⟩

/-- Create or replace a directory entry. -/
def FS.setDir (fs : FS) (p : String) (entries : List String) : FS :=
  ⟨fs.files, setAssoc fs.dirs p entries⟩

/-- `tf.compat.v1.gfile.DeleteRecursively`: removes whatever lives at `p`
(caller handles absence). -/
def FS.deleteRecursively (fs : FS) (p : String) : FS :=
  ⟨removeAssoc fs.files p, removeAssoc fs.dirs p⟩

@[simp] theorem FS.lookupFile_setFile_self (fs : FS) (p c : String) :
    (fs.setFile p c).lookupFile p = some c := by
  simp [FS.setFile, FS.lookupFile]

theorem FS.lookupFile_setFile_other (fs : FS) (p c q : String) (h : q ≠ p) :
    (fs.setFile p c).lookupFile q = fs.lookupFile q := by
  simp [FS.setFile, FS.lookupFile, lookupAssoc_set_other _ _ _ _ h]

@[simp] theorem FS.lookupDir_setFile (fs : FS) (p c q : String) :
    (fs.setFile p c).lookupDir q = fs.lookupDir q := rfl

@[simp] theorem FS.lookupFile_setDir (fs : FS) (p : String) (es : List String)
    (q : String) : (fs.setDir p es).lookupFile q = fs.lookupFile q := rfl

@[simp] theorem FS.lookupDir_setDir_self (fs : FS) (p : String) (es : List String) :
    (fs.setDir p es).lookupDir p = some es := by
  simp [FS.setDir, FS.lookupDir]

theorem FS.lookupDir_setDir_other (fs : FS) (p : String) (es : List String)
    (q : String) (h : q ≠ p) : (fs.setDir p es).lookupDir q = fs.lookupDir q := by
  simp [FS.setDir, FS.lookupDir, lookupAssoc_set_other _ _ _ _ h]

@[simp] theorem FS.lookupFile_deleteRecursively_self (fs : FS) (p : String) :
    (fs.deleteRecursively p).lookupFile p = none := by
  simp [FS.deleteRecursively, FS.lookupFile]

@[simp] theorem FS.lookupDir_deleteRecursively_self (fs : FS) (p : String) :
    (fs.deleteRecursively p).lookupDir p = none := by
  simp [FS.deleteRecursively, FS.lookupDir]

theorem FS.lookupFile_deleteRecursively_other (fs : FS) (p q : String) (h : q ≠ p) :
    (fs.deleteRecursively p).lookupFile q = fs.lookupFile q := by
  simp [FS.deleteRecursively, FS.lookupFile, lookupAssoc_remove_other _ _ _ h]

theorem FS.lookupDir_deleteRecursively_other (fs : FS) (p q : String) (h : q ≠ p) :
    (fs.deleteRecursively p).lookupDir q = fs.lookupDir q := by
  simp [FS.deleteRecursively, FS.lookupDir, lookupAssoc_remove_other _ _ _ h]

@[simp] theorem FS.lookupFile_removeFile_self (fs : FS) (p : String) :
    (fs.removeFile p).lookupFile p = none := by
  simp [FS.removeFile, FS.lookupFile]

theorem FS.lookupFile_removeFile_other (fs : FS) (p q : String) (h : q ≠ p) :
    (fs.removeFile p).lookupFile q = fs.lookupFile q := by
  simp [FS.removeFile, FS.lookupFile, lookupAssoc_remove_other _ _ _ h]

@[simp] theorem FS.lookupDir_removeFile (fs : FS) (p q : String) :
    (fs.removeFile p).lookupDir q = fs.lookupDir q := rfl

@[simp] theorem FS.existsPath_deleteRecursively_self (fs : FS) (p : String) :
    (fs.deleteRecursively p).existsPath p = false := by
  simp [FS.existsPath]

/-! ## Lock record and path derivation (pure helpers of resolver.py) -/

/-- `_lock_file_contents(task_uid)` (resolver.py line 233):
`"%s.%d.%s" % (socket.gethostname(), os.getpid(), task_uid)`.  The impure
hostname and pid reads are passed in as arguments. -/
def _lock_file_contents (host : String) (pid : Nat) (task_uid : String) : String :=
  host ++ "." ++ toString pid ++ "." ++ task_uid

/-- `_lock_filename(module_dir)` (line 238):
`tf_utils.absolute_path(module_dir) + ".lock"`.  `tf_utils.absolute_path` is
outside this repository slice, so it is passed in as `absP`. -/
def _lock_filename (absP : String → String) (module_dir : String) : String :=
  absP module_dir ++ ".lock"

/-- `_temp_download_dir(module_dir, task_uid)` (line 264):
`"{}.{}.tmp".format(tf_utils.absolute_path(module_dir), task_uid)`. -/
def _temp_download_dir (absP : String → String) (module_dir task_uid : String) :
    String :=
  absP module_dir ++ "." ++ task_uid ++ ".tmp"

/-- `_module_descriptor_file(module_dir)` (line 210):
`"{}.descriptor.txt".format(module_dir)`. -/
def _module_descriptor_file (module_dir : String) : String :=
  module_dir ++ ".descriptor.txt"

/-- Python's `str.split(".")` on the underlying character list: splits at
every dot, keeping empty fields; never returns the empty list. -/
def splitOnDotChars : List Char → List (List Char)
  | [] => [[]]
  | c :: cs =>
    match splitOnDotChars cs with
    | [] => [[]]
    | f :: rest => if c = '.' then [] :: f :: rest else (c :: f) :: rest

/-- Python's `list[-1]` on a non-empty list (the argument is never empty
where this is used, so the `[]` case is arbitrary). -/
def lastField : List (List Char) → List Char
  | [] => []
  | [x] => x
  | _ :: x :: xs => lastField (x :: xs)

/-- The pure decoding step of `_task_uid_from_lock_file` (line 259):
`lock.split(".")[-1]` applied to the lock file's content (the file read
itself is handled by the callers in the filesystem model). -/
def _task_uid_from_lock_contents (lock : String) : String :=
  String.mk (lastField (splitOnDotChars lock.data))

theorem splitOnDotChars_ne_nil (l : List Char) : splitOnDotChars l ≠ [] := by
  cases l with
  | nil => simp [splitOnDotChars]
  | cons c cs =>
    simp only [splitOnDotChars]
    cases h : splitOnDotChars cs with
    | nil => simp
    | cons f rest =>
      by_cases hc : c = '.' <;> simp [hc]

theorem splitOnDotChars_no_dot (l : List Char) (h : ∀ c ∈ l, c ≠ '.') :
    splitOnDotChars l = [l] := by
  induction l with
  | nil => rfl
  | cons c cs ih =>
    have hc : c ≠ '.' := h c (by simp)
    have ihcs : splitOnDotChars cs = [cs] := ih (fun x hx => h x (by simp [hx]))
    simp [splitOnDotChars, ihcs, hc]

theorem splitOnDotChars_length_two_of_dot (xs ys : List Char) :
    2 ≤ (splitOnDotChars (xs ++ '.' :: ys)).length := by
  induction xs with
  | nil =>
    simp only [List.nil_append, splitOnDotChars]
    cases h : splitOnDotChars ys with
    | nil => exact absurd h (splitOnDotChars_ne_nil ys)
    | cons f rest => simp
  | cons c cs ih =>
    simp only [List.cons_append, splitOnDotChars]
    cases h : splitOnDotChars (cs ++ '.' :: ys) with
    | nil => exact absurd h (splitOnDotChars_ne_nil _)
    | cons f rest =>
      rw [h] at ih
      by_cases hc : c = '.'
      · simp [hc]
      · simp [hc]
        simpa using ih

theorem lastField_cons_of_ne_nil (f : List Char) (rest : List (List Char))
    (h : rest ≠ []) : lastField (f :: rest) = lastField rest := by
  cases rest with
  | nil => exact absurd rfl h
  | cons g gs => rfl

theorem splitOnDotChars_cons (c : Char) (cs : List Char) :
    splitOnDotChars (c :: cs) =
      match splitOnDotChars cs with
      | [] => [[]]
      | f :: rest => if c = '.' then [] :: f :: rest else (c :: f) :: rest := rfl

theorem lastField_append_dot (xs ys : List Char) :
    lastField (splitOnDotChars (xs ++ '.' :: ys)) =
      lastField (splitOnDotChars ('.' :: ys)) := by
  induction xs with
  | nil => rfl
  | cons c cs ih =>
    rw [List.cons_append]
    cases h : splitOnDotChars (cs ++ '.' :: ys) with
    | nil => exact absurd h (splitOnDotChars_ne_nil _)
    | cons f rest =>
      have hlen : 2 ≤ (f :: rest).length := by
        rw [← h]; exact splitOnDotChars_length_two_of_dot cs ys
      have hrest : rest ≠ [] := by
        intro hr; rw [hr] at hlen; simp at hlen
      have hsplit : splitOnDotChars (c :: (cs ++ '.' :: ys)) =
          if c = '.' then [] :: f :: rest else (c :: f) :: rest := by
        rw [splitOnDotChars_cons, h]
      by_cases hc : c = '.'
      · rw [hsplit, if_pos hc, lastField_cons_of_ne_nil _ _ (List.cons_ne_nil f rest),
          ← h]
        exact ih
      · rw [hsplit, if_neg hc, lastField_cons_of_ne_nil _ _ hrest]
        rw [h, lastField_cons_of_ne_nil _ _ hrest] at ih
        exact ih

theorem string_data_inj {a b : String} (h : a.data = b.data) : a = b :=
  String.ext h

theorem string_mk_data (s : String) : String.mk s.data = s := rfl

/-- **C7.** Lock Record round-trip: for every host string, pid, and task uid
where the uid contains no `'.'`, decoding the encoded lock content
`host + "." + pid + "." + uid` by taking the last `'.'`-delimited field
recovers exactly `uid`, even when the host itself contains dots (the pid is
rendered from a number by `%d` and so is dot-free by construction); both
encode and decode-split are pure string functions. -/
theorem lock_record_roundtrip (host : String) (pid : Nat) (uid : String)
    (h : ∀ c ∈ uid.data, c ≠ '.') :
    _task_uid_from_lock_contents (_lock_file_contents host pid uid) = uid := by
  unfold _task_uid_from_lock_contents _lock_file_contents
  have hdata : (host ++ "." ++ toString pid ++ "." ++ uid).data
      = (host.data ++ '.' :: (toString pid).data) ++ '.' :: uid.data := by
    simp [String.data_append]
  rw [hdata, lastField_append_dot, splitOnDotChars_cons,
    splitOnDotChars_no_dot uid.data h]
  simp [lastField, string_mk_data]

/-- Witness for `lock_record_roundtrip` at a concrete dotted host. -/
theorem lock_record_roundtrip_witness :
    _task_uid_from_lock_contents
      (_lock_file_contents "node.example.org" 4242 "abc123def") = "abc123def" :=
  lock_record_roundtrip "node.example.org" 4242 "abc123def" (by decide)

/-- **C9.** Persisted-artifact path derivation: the temporary download
directory is `absolute(module_dir) + "." + uid + ".tmp"`, the lock file is
`absolute(module_dir) + ".lock"`, the descriptor file is
`module_dir + ".descriptor.txt"`; and for a fixed `module_dir`, distinct
task uids always yield distinct temporary directories. -/
theorem persisted_path_derivation (absP : String → String) (m u1 u2 : String) :
    _temp_download_dir absP m u1 = absP m ++ "." ++ u1 ++ ".tmp" ∧
    _lock_filename absP m = absP m ++ ".lock" ∧
    _module_descriptor_file m = m ++ ".descriptor.txt" ∧
    (u1 ≠ u2 → _temp_download_dir absP m u1 ≠ _temp_download_dir absP m u2) := by
  refine ⟨rfl, rfl, rfl, fun hne heq => hne ?_⟩
  unfold _temp_download_dir at heq
  have h2 := congrArg String.data heq
  simp only [String.data_append] at h2
  exact string_data_inj
    (List.append_cancel_left (List.append_cancel_right h2))

/-- Witness for `persisted_path_derivation`: distinct uids give distinct
temp directories for the same module dir. -/
theorem persisted_path_derivation_witness :
    _temp_download_dir id "/cache/mod" "aaaa" ≠ _temp_download_dir id "/cache/mod" "bbbb" :=
  (persisted_path_derivation id "/cache/mod" "aaaa" "bbbb").2.2.2 (by decide)

/-! ## Staleness Monitor: `_wait_for_lock_to_disappear` (lines 287-336) -/

/-- Loop state of `_wait_for_lock_to_disappear` (initialized at lines
303-305): last observed temp-dir size, the time of the last change-check
reset, and the last observed lock content (`none` before the first
observation, matching the Python `None`). -/
structure MonState where
  lockedTmpDirSize : Nat
  sizeCheckTime : Rat
  lockFileContent : Option String
deriving DecidableEq, Repr

/-- One poll observation of the external world: whether the lock file still
exists at the `while` test, `time.time()` at the check, the result of reading
the lock file (`none` models a `NotFoundError` raised mid-check and caught at
line 330), the locked temp directory's size (`_locked_tmp_dir_size`, already
0 when the directory is missing, line 283-284), and the second `time.time()`
reading used to reset `locked_tmp_dir_size_check_time` at line 328. -/
structure Poll where
  lockStillThere : Bool
  now : Rat
  lockContent : Option String
  tmpDirSize : Nat
  now2 : Rat

/-- How the wait loop ended. -/
inductive MonExit where
  | lockGone
  | stolenLock
  | outOfPolls
deriving DecidableEq, Repr

/-- The polling loop of `_wait_for_lock_to_disappear` (lines 306-336), one
recursive step per iteration of the `while` loop, consuming one observation
per iteration.  `stolenLock` means the contender executed
`gfile.Remove(lock_file)` and then `break` (lines 325-326). -/
def monitorLoop (timeout : Rat) : List Poll → MonState → MonExit × MonState
  | [], s => (.outOfPolls, s)
  | p :: rest, s =>
    if !p.lockStillThere then (.lockGone, s)
    else
      match p.lockContent with
      | none => monitorLoop timeout rest s
      | some c =>
        if p.now - s.sizeCheckTime > timeout then
          if p.tmpDirSize = s.lockedTmpDirSize ∧ some c = s.lockFileContent then
            (.stolenLock, s)
          else monitorLoop timeout rest ⟨p.tmpDirSize, p.now2, some c⟩
        else monitorLoop timeout rest s

/-- `_wait_for_lock_to_disappear(handle, lock_file, lock_file_timeout_sec)`:
runs the loop from the initial state of lines 303-305 (`size = 0`,
`check time = time.time()` on entry, `content = None`). -/
def _wait_for_lock_to_disappear (timeout startTime : Rat) (polls : List Poll) :
    MonExit × MonState :=
  monitorLoop timeout polls ⟨0, startTime, none⟩

/-- **C3.** In the Staleness Monitor, a lock file whose owning temporary
directory's size has not changed and whose content is unchanged (relative to
the previously recorded observation) for longer than the lock timeout is
removed by the waiting contender, which then exits the wait loop: at the
first poll past the timeout that observes the recorded content `c` and the
recorded directory size, the loop removes the lock and stops with
`stolenLock`. -/
theorem staleness_monitor_steals_lock (timeout : Rat) (s : MonState) (c : String)
    (p : Poll) (rest : List Poll)
    (hbase : s.lockFileContent = some c)
    (hexists : p.lockStillThere = true)
    (hread : p.lockContent = some c)
    (hsize : p.tmpDirSize = s.lockedTmpDirSize)
    (helapsed : p.now - s.sizeCheckTime > timeout) :
    monitorLoop timeout (p :: rest) s = (.stolenLock, s) := by
  simp [monitorLoop, hexists, hread, helapsed, hsize, hbase]

/-- Witness for `staleness_monitor_steals_lock`: a contender that recorded
content `"h.7.u"` and size 0 at time 0 steals the lock at time 601 with a
600-second timeout. -/
theorem staleness_monitor_steals_lock_witness :
    monitorLoop 600 [⟨true, 601, some "h.7.u", 0, 602⟩] ⟨0, 0, some "h.7.u"⟩ =
      (.stolenLock, ⟨0, 0, some "h.7.u"⟩) :=
  staleness_monitor_steals_lock 600 ⟨0, 0, some "h.7.u"⟩ "h.7.u"
    ⟨true, 601, some "h.7.u", 0, 602⟩ [] rfl rfl rfl rfl (by norm_num)

/-! ## Progress Reporter: `DownloadManager` (lines 124-200) -/

/-- Mutable reporter state (`__init__`, lines 134-135):
`_last_progress_msg_print_time` and `_total_bytes_downloaded`. -/
structure DMState where
  lastProgressMsgPrintTime : Rat
  totalBytesDownloaded : Nat
deriving DecidableEq, Repr

/-- `DownloadManager._log_progress(bytes_downloaded)` (lines 159-175), with
the `time.time()` reading passed in as `now` and the
`TFHUB_DOWNLOAD_PROGRESS` interactive toggle as `interactiveMode`.  Returns
the new state and whether a progress message was printed. -/
def _log_progress (interactiveMode : Bool) (s : DMState) (now : Rat)
    (bytesDownloaded : Nat) : DMState × Bool :=
  let total := s.totalBytesDownloaded + bytesDownloaded
  if interactiveMode || now - s.lastProgressMsgPrintTime > 15 then
    (⟨now, total⟩, true)
  else
    (⟨s.lastProgressMsgPrintTime, total⟩, false)

/-- Messages the reporter can emit: per-chunk progress lines
(`"Downloading <url>: <bytes>"`, line 172) and the completion summary
(`"Downloaded <url>, Total size: <bytes>"`, line 197).  The
human-readable byte rendering (`tf_utils.bytes_to_readable_str`) is outside
this slice, so messages carry the raw byte count. -/
inductive DlMsg where
  | progressMsg (url : String) (totalBytes : Nat)
  | finalSummary (url : String) (totalBytes : Nat)
deriving DecidableEq, Repr

def DlMsg.isFinalSummary : DlMsg → Bool
  | .finalSummary _ _ => true
  | _ => false

/-- Repeated invocations of `_log_progress`, one per streamed chunk
`(time, bytes)`: returns the final state, the per-invocation
`(time, printed)` record, and the emitted progress messages. -/
def runLogProgress (interactiveMode : Bool) (url : String) :
    DMState → List (Rat × Nat) → DMState × List (Rat × Bool) × List DlMsg
  | s, [] => (s, [], [])
  | s, (t, b) :: rest =>
    let step := _log_progress interactiveMode s t b
    let tail := runLogProgress interactiveMode url step.1 rest
    (tail.1, (t, step.2) :: tail.2.1,
      (if step.2 then [DlMsg.progressMsg url step.1.totalBytesDownloaded] else [])
        ++ tail.2.2)

/-- Times of the invocations that actually printed. -/
def printedTimes (out : List (Rat × Bool)) : List Rat :=
  (out.filter (fun e => e.2)).map (fun e => e.1)

@[simp] theorem printedTimes_nil : printedTimes [] = [] := rfl

@[simp] theorem printedTimes_cons_true (t : Rat) (l : List (Rat × Bool)) :
    printedTimes ((t, true) :: l) = t :: printedTimes l := by
  simp [printedTimes]

@[simp] theorem printedTimes_cons_false (t : Rat) (l : List (Rat × Bool)) :
    printedTimes ((t, false) :: l) = printedTimes l := by
  simp [printedTimes]

/-- `DownloadManager.download_and_uncompress(fileobj, dst_path)` (lines
181-200).  `file_utils.extract_tarfile_to_destination` is outside this
slice; it is modelled by its observable behavior: it drives `_log_progress`
on each streamed chunk and either completes (`tarOk = true`) or raises
`tarfile.ReadError` (`tarOk = false`, with `chunks` the chunks streamed
before the failure).  On completion the final summary message is printed
unconditionally (lines 194-198); a `tarfile.ReadError` is converted at
lines 199-200 into `IOError("%s does not appear to be a valid module.")`. -/
def download_and_uncompress (interactiveMode : Bool) (url : String)
    (tarOk : Bool) (chunks : List (Rat × Nat)) (s : DMState) :
    Except PyErr DMState × List DlMsg :=
  let run := runLogProgress interactiveMode url s chunks
  if tarOk then
    (.ok run.1, run.2.2 ++ [DlMsg.finalSummary url run.1.totalBytesDownloaded])
  else
    (.error (.ioErr (url ++ " does not appear to be a valid module.")), run.2.2)

theorem runLogProgress_no_finalSummary (interactiveMode : Bool) (url : String)
    (s : DMState) (events : List (Rat × Nat)) :
    ∀ m ∈ (runLogProgress interactiveMode url s events).2.2,
      m.isFinalSummary = false := by
  induction events generalizing s with
  | nil => simp [runLogProgress]
  | cons ev rest ih =>
    obtain ⟨t, b⟩ := ev
    intro m hm
    simp only [runLogProgress, List.mem_append] at hm
    cases hstep : (_log_progress interactiveMode s t b).2 with
    | false =>
      simp only [hstep, if_neg Bool.false_ne_true, List.not_mem_nil,
        false_or] at hm
      exact ih _ m hm
    | true =>
      simp [hstep] at hm
      rcases hm with rfl | hm
      · rfl
      · exact ih _ m hm

theorem nonInteractive_print_gaps (url : String) (s : DMState)
    (events : List (Rat × Nat)) :
    List.Chain' (fun a b => b - a > 15)
      (s.lastProgressMsgPrintTime ::
        printedTimes (runLogProgress false url s events).2.1) := by
  induction events generalizing s with
  | nil => simp [runLogProgress]
  | cons ev rest ih =>
    obtain ⟨t, b⟩ := ev
    by_cases hp : t - s.lastProgressMsgPrintTime > 15
    · have hrun : (runLogProgress false url s ((t, b) :: rest)).2.1 =
          (t, true) ::
            (runLogProgress false url ⟨t, s.totalBytesDownloaded + b⟩ rest).2.1 := by
        simp [runLogProgress, _log_progress, hp]
      rw [hrun, printedTimes_cons_true]
      exact List.chain'_cons.mpr ⟨hp, ih ⟨t, s.totalBytesDownloaded + b⟩⟩
    · have hrun : (runLogProgress false url s ((t, b) :: rest)).2.1 =
          (t, false) ::
            (runLogProgress false url
              ⟨s.lastProgressMsgPrintTime, s.totalBytesDownloaded + b⟩ rest).2.1 := by
        simp [runLogProgress, _log_progress, hp]
      rw [hrun, printedTimes_cons_false]
      exact ih ⟨s.lastProgressMsgPrintTime, s.totalBytesDownloaded + b⟩

theorem interactive_prints_each_call (url : String) (s : DMState)
    (events : List (Rat × Nat)) :
    ∀ e ∈ (runLogProgress true url s events).2.1, e.2 = true := by
  induction events generalizing s with
  | nil => simp [runLogProgress]
  | cons ev rest ih =>
    obtain ⟨t, b⟩ := ev
    simp only [runLogProgress, _log_progress, Bool.true_or, if_true,
      List.mem_cons]
    intro e he
    rcases he with rfl | he
    · rfl
    · exact ih _ e he

/-- **C8.** The Progress Reporter in non-interactive mode emits at most one
progress message per fixed 15-second interval across any sequence of
invocations (consecutive printed invocations — including relative to the
construction time held in the initial state — are more than 15 seconds
apart); in interactive mode it emits on every invocation; and on completion
of `download_and_uncompress`, exactly one final summary message is emitted
regardless of cadence suppression (in either mode). -/
theorem progress_reporter_cadence (url : String) (s s2 : DMState)
    (events intEvents chunks : List (Rat × Nat)) :
    List.Chain' (fun a b => b - a > 15)
      (s.lastProgressMsgPrintTime ::
        printedTimes (runLogProgress false url s events).2.1) ∧
    (∀ e ∈ (runLogProgress true url s intEvents).2.1, e.2 = true) ∧
    (download_and_uncompress false url true chunks s2).2.countP
        DlMsg.isFinalSummary = 1 ∧
    (download_and_uncompress true url true chunks s2).2.countP
        DlMsg.isFinalSummary = 1 := by
  refine ⟨nonInteractive_print_gaps url s events,
    interactive_prints_each_call url s intEvents, ?_, ?_⟩
  · have hz : (runLogProgress false url s2 chunks).2.2.countP
        DlMsg.isFinalSummary = 0 := by
      rw [List.countP_eq_zero]
      intro m hm
      simpa using runLogProgress_no_finalSummary false url s2 chunks m hm
    simp [download_and_uncompress, List.countP_append, hz, DlMsg.isFinalSummary]
  · have hz : (runLogProgress true url s2 chunks).2.2.countP
        DlMsg.isFinalSummary = 0 := by
      rw [List.countP_eq_zero]
      intro m hm
      simpa using runLogProgress_no_finalSummary true url s2 chunks m hm
    simp [download_and_uncompress, List.countP_append, hz, DlMsg.isFinalSummary]

/-- Witness for `progress_reporter_cadence`: in interactive mode the single
invocation at time 0 printed. -/
theorem progress_reporter_cadence_witness :
    ((0 : Rat), true) ∈ (runLogProgress true "u" ⟨0, 0⟩ [(0, 5)]).2.1 ∧
    ((0 : Rat), true).2 = true :=
  ⟨by decide,
    (progress_reporter_cadence "u" ⟨0, 0⟩ ⟨0, 0⟩ [] [(0, 5)] []).2.1
      ((0 : Rat), true) (by decide)⟩

/-! ## Cache Population Orchestrator: `atomic_download` (lines 339-452) -/

/-- The `check_module_exists` lambda (lines 368-370):
`gfile.Exists(module_dir) and gfile.ListDirectory(module_dir)` under Python
truthiness; `ListDirectory` raises `NotFoundError` when the path exists only
as a plain file. -/
def checkModuleExists (module_dir : String) (fs : FS) : Except TFErr Bool :=
  if fs.existsPath module_dir then
    match fs.lookupDir module_dir with
    | some entries => .ok (!entries.isEmpty)
    | none => .error .notFound
  else .ok false

/-- `tf_utils.atomic_write_string_to_file(lock_file, lock_contents,
overwrite=False)` (lines 383-384; the helper lives in `tf_utils` outside
this slice and is spec'd as an exclusive conditional create).  `inj` injects
a backend failure of a chosen class; `none` means the backend is healthy and
the write succeeds exactly when no file is already present. -/
def atomicWriteNoOverwrite (fs : FS) (path content : String)
    (inj : Option TFErr) : Except TFErr FS :=
  match inj with
  | some e => .error e
  | none =>
    if (fs.lookupFile path).isSome then .error .alreadyExists
    else .ok (fs.setFile path content)

/-- `tf.compat.v1.gfile.Rename(tmp_dir, module_dir)` (line 430): raises
`AlreadyExistsError` when the destination exists, `NotFoundError` when the
source directory is missing, and otherwise atomically moves the
directory. -/
def renameNoOverwrite (fs : FS) (src dst : String) : Except TFErr FS :=
  if fs.existsPath dst then .error .alreadyExists
  else
    match fs.lookupDir src with
    | none => .error .notFound
    | some entries => .ok ((fs.deleteRecursively src).setDir dst entries)

/-- `tf.compat.v1.gfile.MakeDirs(tmp_dir)` (line 417): creates the
directory when not already present. -/
def makeDirs (fs : FS) (p : String) : FS :=
  if (fs.lookupDir p).isSome then fs else fs.setDir p []

/-- Externally visible actions of one `atomic_download` run. -/
inductive Act where
  | lockWriteAttempt
  | waitForLock
  | deleteModuleDir
  | makeTmpDir
  | downloadCall
  | writeDescriptor
  | renameAttempt (destExisted : Bool)
  | removeLockFile
deriving DecidableEq, Repr

/-- One iteration's worth of external nondeterminism in the acquisition
loop: the injected outcome of the lock write (line 383), and the changes
other tasks make to the filesystem while this task waits inside
`_wait_for_lock_to_disappear` (line 408). -/
structure AcqStep where
  writeInj : Option TFErr
  interference : FS → FS

/-- Result of the `while True` acquisition loop (lines 381-413):
`acquired` (the `break` at line 392), `earlyReturn` (the `return` at line
389), `raised` (the re-raise at line 402 of a permanent error, or a
`NotFoundError` from the re-check), or `outOfScript` (the supplied script
ended while the loop was still retrying). -/
inductive AcqOutcome where
  | acquired (fs : FS)
  | earlyReturn (fs : FS)
  | raised (e : PyErr) (fs : FS)
  | outOfScript (fs : FS)

/-- The acquisition loop (lines 381-413), consuming one `AcqStep` per
iteration of the `while True` loop. -/
def acquireLoop (module_dir lock_file lock_contents : String) :
    List AcqStep → FS → AcqOutcome × List Act
  | [], fs => (.outOfScript fs, [])
  | step :: rest, fs =>
    match atomicWriteNoOverwrite fs lock_file lock_contents step.writeInj with
    | .ok fs1 =>
      match checkModuleExists module_dir fs1 with
      | .error e => (.raised (.op e) fs1, [.lockWriteAttempt])
      | .ok true => (.earlyReturn fs1, [.lockWriteAttempt])
      | .ok false =>
        if fs1.existsPath module_dir then
          (.acquired (fs1.deleteRecursively module_dir),
            [.lockWriteAttempt, .deleteModuleDir])
        else (.acquired fs1, [.lockWriteAttempt])
    | .error e =>
      if e.isPermanentLockFailure then (.raised (.op e) fs, [.lockWriteAttempt])
      else
        let next := acquireLoop module_dir lock_file lock_contents rest
            (step.interference fs)
        (next.1, .lockWriteAttempt :: .waitForLock :: next.2)

/-- The post-acquisition body (lines 416-433): create the temp dir, run the
caller-supplied `download_fn` (modelled as an arbitrary state transformer on
the filesystem that also yields an outcome), write the descriptor record
(overwrite allowed, line 228), and attempt the final rename, swallowing only
`AlreadyExistsError` (lines 429-433). -/
def afterLock (module_dir tmp_dir descriptorContent : String)
    (download_fn : String → FS → Except PyErr Unit × FS) (fs : FS) :
    Except PyErr Unit × FS × List Act :=
  let fs1 := makeDirs fs tmp_dir
  match download_fn tmp_dir fs1 with
  | (.error e, fs2) => (.error e, fs2, [.makeTmpDir, .downloadCall])
  | (.ok _, fs2) =>
    let fs3 := fs2.setFile (_module_descriptor_file module_dir) descriptorContent
    match renameNoOverwrite fs3 tmp_dir module_dir with
    | .ok fs4 =>
      (.ok (), fs4,
        [.makeTmpDir, .downloadCall, .writeDescriptor, .renameAttempt false])
    | .error .alreadyExists =>
      (.ok (), fs3,
        [.makeTmpDir, .downloadCall, .writeDescriptor, .renameAttempt true])
    | .error e =>
      (.error (.op e), fs3,
        [.makeTmpDir, .downloadCall, .writeDescriptor, .renameAttempt false])

/-- The `finally` clause (lines 435-450): delete the temp dir (absence
ignored), read the lock file ("" when missing), and remove the lock file
only when its current content is still the content this task wrote
(absence of the lock during removal is also ignored). -/
def cleanupAfter (lock_file tmp_dir lock_contents : String) (fs : FS) :
    FS × List Act :=
  if ((fs.deleteRecursively tmp_dir).lookupFile lock_file).getD ""
      = lock_contents then
    ((fs.deleteRecursively tmp_dir).removeFile lock_file, [.removeLockFile])
  else (fs.deleteRecursively tmp_dir, [])

/-- Observable result of a run of `atomic_download`. -/
inductive DlStatus where
  | done (path : String)
  | raised (e : PyErr)
  | stillLooping
deriving DecidableEq, Repr

/-- `atomic_download(handle, download_fn, module_dir, lock_file_timeout_sec)`
(lines 339-452).  The impure per-attempt inputs are explicit: `host`/`pid`
(for the lock content), `task_uid` (the `uuid4` hex token), `absP`
(`tf_utils.absolute_path`, outside this slice), `descriptorContent` (the
descriptor text, built at lines 221-224 from the wall clock and host), the
caller's `download_fn`, and a `script` supplying the acquisition loop's
external nondeterminism.  Returns the result, the final filesystem, and the
action trace. -/
def atomic_download (module_dir host : String) (pid : Nat) (task_uid : String)
    (absP : String → String) (descriptorContent : String)
    (download_fn : String → FS → Except PyErr Unit × FS)
    (script : List AcqStep) (fs0 : FS) : DlStatus × FS × List Act :=
  let lock_file := _lock_filename absP module_dir
  let lock_contents := _lock_file_contents host pid task_uid
  let tmp_dir := _temp_download_dir absP module_dir task_uid
  match checkModuleExists module_dir fs0 with
  | .error e => (.raised (.op e), fs0, [])
  | .ok true => (.done module_dir, fs0, [])
  | .ok false =>
    match acquireLoop module_dir lock_file lock_contents script fs0 with
    | (.outOfScript fs1, tr) => (.stillLooping, fs1, tr)
    | (.earlyReturn fs1, tr) =>
      let cl := cleanupAfter lock_file tmp_dir lock_contents fs1
      (.done module_dir, cl.1, tr ++ cl.2)
    | (.raised e fs1, tr) =>
      let cl := cleanupAfter lock_file tmp_dir lock_contents fs1
      (.raised e, cl.1, tr ++ cl.2)
    | (.acquired fs1, tr) =>
      let body := afterLock module_dir tmp_dir descriptorContent download_fn fs1
      let cl := cleanupAfter lock_file tmp_dir lock_contents body.2.1
      match body.1 with
      | .ok _ => (.done module_dir, cl.1, tr ++ body.2.2 ++ cl.2)
      | .error e => (.raised e, cl.1, tr ++ body.2.2 ++ cl.2)

theorem lookupAssoc_remove_none {α : Type} (l : List (String × α)) (p q : String)
    (h : lookupAssoc l q = none) : lookupAssoc (removeAssoc l p) q = none := by
  by_cases hpq : q = p
  · subst hpq; simp
  · rw [lookupAssoc_remove_other l p q hpq]; exact h

theorem FS.existsPath_eq_false_iff (fs : FS) (q : String) :
    fs.existsPath q = false ↔
      fs.lookupFile q = none ∧ fs.lookupDir q = none := by
  unfold FS.existsPath
  cases hf : fs.lookupFile q with
  | none => cases hd : fs.lookupDir q with
    | none => simp
    | some d => simp [hd]
  | some v => simp [hf]

theorem FS.existsPath_removeFile_mono (fs : FS) (p q : String)
    (h : fs.existsPath q = false) : (fs.removeFile p).existsPath q = false := by
  rw [FS.existsPath_eq_false_iff] at h ⊢
  exact ⟨lookupAssoc_remove_none _ _ _ h.1, h.2⟩

theorem FS.existsPath_deleteRecursively_mono (fs : FS) (p q : String)
    (h : fs.existsPath q = false) :
    (fs.deleteRecursively p).existsPath q = false := by
  rw [FS.existsPath_eq_false_iff] at h ⊢
  exact ⟨lookupAssoc_remove_none _ _ _ h.1, lookupAssoc_remove_none _ _ _ h.2⟩

/-- The two possible cleanup traces. -/
theorem cleanupAfter_trace_cases (lock_file tmp_dir lock_contents : String)
    (fs : FS) :
    (cleanupAfter lock_file tmp_dir lock_contents fs).2 = [] ∨
    (cleanupAfter lock_file tmp_dir lock_contents fs).2 = [Act.removeLockFile] := by
  unfold cleanupAfter
  by_cases h : (((fs.deleteRecursively tmp_dir).lookupFile lock_file).getD "")
      = lock_contents
  · right; simp [h]
  · left; simp [h]

/-- Cleanup always leaves the temp download directory absent. -/
theorem cleanupAfter_tmp_absent (lock_file tmp_dir lock_contents : String)
    (fs : FS) :
    (cleanupAfter lock_file tmp_dir lock_contents fs).1.existsPath tmp_dir
      = false := by
  unfold cleanupAfter
  by_cases h : (((fs.deleteRecursively tmp_dir).lookupFile lock_file).getD "")
      = lock_contents
  · simp only [h, if_pos rfl]
    exact FS.existsPath_removeFile_mono _ _ _
      (FS.existsPath_deleteRecursively_self fs tmp_dir)
  · simp only [if_neg h]
    exact FS.existsPath_deleteRecursively_self fs tmp_dir

/-- Cleanup never creates a path: an absent path stays absent. -/
theorem cleanupAfter_preserves_absent (lock_file tmp_dir lock_contents q : String)
    (fs : FS) (h : fs.existsPath q = false) :
    (cleanupAfter lock_file tmp_dir lock_contents fs).1.existsPath q = false := by
  unfold cleanupAfter
  by_cases hc : (((fs.deleteRecursively tmp_dir).lookupFile lock_file).getD "")
      = lock_contents
  · simp only [hc, if_pos rfl]
    exact FS.existsPath_removeFile_mono _ _ _
      (FS.existsPath_deleteRecursively_mono fs tmp_dir q h)
  · simp only [if_neg hc]
    exact FS.existsPath_deleteRecursively_mono fs tmp_dir q h

/-- Cleanup removes the lock file exactly when its current content (after
the temp-dir deletion) is this task's content. -/
theorem cleanupAfter_lock_removed (lock_file tmp_dir lock_contents : String)
    (fs : FS)
    (h : (fs.deleteRecursively tmp_dir).lookupFile lock_file
      = some lock_contents) :
    (cleanupAfter lock_file tmp_dir lock_contents fs).1.lookupFile lock_file
        = none ∧
    (cleanupAfter lock_file tmp_dir lock_contents fs).2
        = [Act.removeLockFile] := by
  unfold cleanupAfter
  simp [h]

/-- With a mismatched or missing lock, cleanup leaves the lock entry exactly
as it was and performs no removal (requires the task's own content to be
non-empty, which `_lock_file_contents` guarantees). -/
theorem cleanupAfter_lock_kept (lock_file tmp_dir lock_contents : String)
    (fs : FS) (hne : lock_contents ≠ "")
    (h : (fs.deleteRecursively tmp_dir).lookupFile lock_file
      ≠ some lock_contents) :
    (cleanupAfter lock_file tmp_dir lock_contents fs).1.lookupFile lock_file
        = (fs.deleteRecursively tmp_dir).lookupFile lock_file ∧
    (cleanupAfter lock_file tmp_dir lock_contents fs).2 = [] := by
  unfold cleanupAfter
  have hcond : (((fs.deleteRecursively tmp_dir).lookupFile lock_file).getD "")
      ≠ lock_contents := by
    cases hl : (fs.deleteRecursively tmp_dir).lookupFile lock_file with
    | none => simpa using Ne.symm hne
    | some c =>
      rw [hl] at h
      simpa using fun hc => h (congrArg some hc)
  simp [hcond]

theorem _lock_file_contents_ne_empty (host : String) (pid : Nat)
    (task_uid : String) : _lock_file_contents host pid task_uid ≠ "" := by
  intro h
  have h1 := congrArg String.length h
  unfold _lock_file_contents at h1
  have hdot : ("." : String).length = 1 := rfl
  have hemp : ("" : String).length = 0 := rfl
  simp only [String.length_append, hdot, hemp] at h1
  omega

/-- **C6 (counterexample).** At a concrete failing tar parse, the error class
surfaced by `download_and_uncompress` is the builtin generic `IOError`
(`PyErr.ioErr`, carrying the distinctive message), not a distinct
"invalid artifact" error kind — refuting the claim that the surfaced error
is not a generic I/O error. -/
theorem invalid_tar_generic_ioerror_counterexample :
    (download_and_uncompress false "http://example.com/m" false [] ⟨0, 0⟩).1 =
      .error (.ioErr
        "http://example.com/m does not appear to be a valid module.") := by
  rfl

/-- **C6 (amended).** When the downloaded stream fails to parse as tar,
`download_and_uncompress` converts the `tarfile.ReadError` into the generic
`IOError` carrying the distinctive message
`"<url> does not appear to be a valid module."`: the invalid artifact is
distinguished by the message, not by a distinct error class. -/
theorem tar_parse_failure_raises_ioerror (interactiveMode : Bool)
    (url : String) (chunks : List (Rat × Nat)) (s : DMState) :
    (download_and_uncompress interactiveMode url false chunks s).1 =
      .error (.ioErr (url ++ " does not appear to be a valid module.")) := by
  rfl

/-- **C2.** For every `moduleDir` that exists and is non-empty before the
call, `atomic_download` returns `moduleDir` immediately: the filesystem is
untouched and the action trace is empty — no lock file is created,
`downloadFn` is not invoked, and no temporary directory is created. -/
theorem atomic_download_fast_path (module_dir host : String) (pid : Nat)
    (task_uid : String) (absP : String → String) (descriptorContent : String)
    (download_fn : String → FS → Except PyErr Unit × FS)
    (script : List AcqStep) (fs0 : FS) (entries : List String)
    (hmod : fs0.lookupDir module_dir = some entries) (hne : entries ≠ []) :
    atomic_download module_dir host pid task_uid absP descriptorContent
      download_fn script fs0 = (.done module_dir, fs0, []) := by
  have hcheck : checkModuleExists module_dir fs0 = .ok true := by
    cases entries with
    | nil => exact absurd rfl hne
    | cons a as => simp [checkModuleExists, FS.existsPath, hmod]
  simp [atomic_download, hcheck]

/-- Witness for `atomic_download_fast_path`: a populated module dir is
returned untouched with an empty trace. -/
theorem atomic_download_fast_path_witness :
    atomic_download "/c/m" "h" 1 "u" id "d" (fun _ fs => (.ok (), fs)) []
        ⟨[], [("/c/m", ["saved_model.pb"])]⟩ =
      (.done "/c/m", ⟨[], [("/c/m", ["saved_model.pb"])]⟩, []) :=
  atomic_download_fast_path "/c/m" "h" 1 "u" id "d" (fun _ fs => (.ok (), fs))
    [] ⟨[], [("/c/m", ["saved_model.pb"])]⟩ ["saved_model.pb"]
    (by decide) (by decide)

/-- **C5.** If lock-file creation fails with a permanent storage error class
(not-found, permission-denied, unauthenticated, resource-exhausted,
internal, invalid-argument, unimplemented), `atomic_download` aborts
immediately with that error: no retry iteration and no staleness wait occurs
(the trace shows exactly one lock-write attempt and never a wait; the outer
`finally` cleanup still runs).  Every other `OpError` failure during lock
creation is swallowed and the acquisition loop performs the staleness wait
and retries with the remaining script. -/
theorem permanent_lock_error_aborts (module_dir host : String) (pid : Nat)
    (task_uid : String) (absP : String → String) (descriptorContent : String)
    (download_fn : String → FS → Except PyErr Unit × FS) (intf : FS → FS)
    (rest : List AcqStep) (fs0 : FS) (e : TFErr) :
    (checkModuleExists module_dir fs0 = .ok false →
      e.isPermanentLockFailure = true →
      (atomic_download module_dir host pid task_uid absP descriptorContent
          download_fn (⟨some e, intf⟩ :: rest) fs0).1 = .raised (.op e) ∧
      (atomic_download module_dir host pid task_uid absP descriptorContent
          download_fn (⟨some e, intf⟩ :: rest) fs0).2.2.count
          Act.lockWriteAttempt = 1 ∧
      Act.waitForLock ∉ (atomic_download module_dir host pid task_uid absP
          descriptorContent download_fn (⟨some e, intf⟩ :: rest) fs0).2.2) ∧
    (e.isPermanentLockFailure = false →
      acquireLoop module_dir (_lock_filename absP module_dir)
          (_lock_file_contents host pid task_uid) (⟨some e, intf⟩ :: rest) fs0 =
        ((acquireLoop module_dir (_lock_filename absP module_dir)
            (_lock_file_contents host pid task_uid) rest (intf fs0)).1,
          Act.lockWriteAttempt :: Act.waitForLock ::
            (acquireLoop module_dir (_lock_filename absP module_dir)
              (_lock_file_contents host pid task_uid) rest (intf fs0)).2)) := by
  constructor
  · intro hcheck hperm
    have hacq : acquireLoop module_dir (_lock_filename absP module_dir)
        (_lock_file_contents host pid task_uid) (⟨some e, intf⟩ :: rest) fs0 =
        (.raised (.op e) fs0, [Act.lockWriteAttempt]) := by
      simp [acquireLoop, atomicWriteNoOverwrite, hperm]
    rcases cleanupAfter_trace_cases (_lock_filename absP module_dir)
        (_temp_download_dir absP module_dir task_uid)
        (_lock_file_contents host pid task_uid) fs0 with hcl | hcl <;>
      simp [atomic_download, hcheck, hacq, hcl]
  · intro hperm
    simp [acquireLoop, atomicWriteNoOverwrite, hperm]

/-- Witness for `permanent_lock_error_aborts`: an injected
`PermissionDeniedError` on the first lock write aborts the run with that
error, while an injected `AbortedError` is swallowed and the loop waits and
retries. -/
theorem permanent_lock_error_aborts_witness :
    ((atomic_download "/c/m" "h" 1 "u" id "d" (fun _ fs => (.ok (), fs))
        [⟨some .permissionDenied, id⟩] ⟨[], []⟩).1 =
      .raised (.op .permissionDenied)) ∧
    (acquireLoop "/c/m" (_lock_filename id "/c/m")
        (_lock_file_contents "h" 1 "u") [⟨some .abortedErr, id⟩] ⟨[], []⟩ =
      ((acquireLoop "/c/m" (_lock_filename id "/c/m")
          (_lock_file_contents "h" 1 "u") [] (id ⟨[], []⟩)).1,
        Act.lockWriteAttempt :: Act.waitForLock ::
          (acquireLoop "/c/m" (_lock_filename id "/c/m")
            (_lock_file_contents "h" 1 "u") [] (id ⟨[], []⟩)).2)) :=
  ⟨((permanent_lock_error_aborts "/c/m" "h" 1 "u" id "d"
      (fun _ fs => (.ok (), fs)) id [] ⟨[], []⟩ .permissionDenied).1
      rfl rfl).1,
    (permanent_lock_error_aborts "/c/m" "h" 1 "u" id "d"
      (fun _ fs => (.ok (), fs)) id [] ⟨[], []⟩ .abortedErr).2 rfl⟩

/-- **C1.** For every call to `atomic_download` in which `downloadFn` raises
an error after the lock has been acquired, the temporary download directory
is deleted, this task's lock file is deleted only if the lock file's current
content still equals the content this task originally wrote (a mismatched or
missing lock is skipped silently, not an error), the error propagates to the
caller, and `moduleDir` is left absent (given that the failing `downloadFn`
itself left `moduleDir` absent, as the download contract requires it to
write only inside the temp directory). -/
theorem download_error_full_cleanup (module_dir host : String) (pid : Nat)
    (task_uid : String) (absP : String → String) (descriptorContent : String)
    (download_fn : String → FS → Except PyErr Unit × FS)
    (script : List AcqStep) (fs0 fsA fs1 : FS) (trA : List Act) (e : PyErr)
    (hcheck : checkModuleExists module_dir fs0 = .ok false)
    (hacq : acquireLoop module_dir (_lock_filename absP module_dir)
        (_lock_file_contents host pid task_uid) script fs0 =
      (.acquired fsA, trA))
    (hdl : download_fn (_temp_download_dir absP module_dir task_uid)
        (makeDirs fsA (_temp_download_dir absP module_dir task_uid)) =
      (.error e, fs1))
    (hmodAbsent : fs1.existsPath module_dir = false) :
    (atomic_download module_dir host pid task_uid absP descriptorContent
        download_fn script fs0).1 = .raised e ∧
    (atomic_download module_dir host pid task_uid absP descriptorContent
        download_fn script fs0).2.1.existsPath
        (_temp_download_dir absP module_dir task_uid) = false ∧
    (atomic_download module_dir host pid task_uid absP descriptorContent
        download_fn script fs0).2.1.existsPath module_dir = false ∧
    (FS.lookupFile (fs1.deleteRecursively
          (_temp_download_dir absP module_dir task_uid))
          (_lock_filename absP module_dir) =
        some (_lock_file_contents host pid task_uid) →
      (atomic_download module_dir host pid task_uid absP descriptorContent
          download_fn script fs0).2.1.lookupFile
          (_lock_filename absP module_dir) = none) ∧
    (FS.lookupFile (fs1.deleteRecursively
          (_temp_download_dir absP module_dir task_uid))
          (_lock_filename absP module_dir) ≠
        some (_lock_file_contents host pid task_uid) →
      (atomic_download module_dir host pid task_uid absP descriptorContent
          download_fn script fs0).2.1.lookupFile
          (_lock_filename absP module_dir) =
        FS.lookupFile (fs1.deleteRecursively
          (_temp_download_dir absP module_dir task_uid))
          (_lock_filename absP module_dir)) := by
  have hbody : afterLock module_dir (_temp_download_dir absP module_dir task_uid)
      descriptorContent download_fn fsA =
      (.error e, fs1, [Act.makeTmpDir, Act.downloadCall]) := by
    simp [afterLock, hdl]
  have hrun : atomic_download module_dir host pid task_uid absP
      descriptorContent download_fn script fs0 =
      (.raised e,
        (cleanupAfter (_lock_filename absP module_dir)
          (_temp_download_dir absP module_dir task_uid)
          (_lock_file_contents host pid task_uid) fs1).1,
        trA ++ [Act.makeTmpDir, Act.downloadCall] ++
          (cleanupAfter (_lock_filename absP module_dir)
            (_temp_download_dir absP module_dir task_uid)
            (_lock_file_contents host pid task_uid) fs1).2) := by
    simp [atomic_download, hcheck, hacq, hbody]
  refine ⟨by rw [hrun], ?_, ?_, ?_, ?_⟩
  · rw [hrun]
    exact cleanupAfter_tmp_absent _ _ _ fs1
  · rw [hrun]
    exact cleanupAfter_preserves_absent _ _ _ _ fs1 hmodAbsent
  · intro h
    rw [hrun]
    exact (cleanupAfter_lock_removed _ _ _ fs1 h).1
  · intro h
    rw [hrun]
    exact (cleanupAfter_lock_kept _ _ _ fs1
      (_lock_file_contents_ne_empty host pid task_uid) h).1

/-- Witness for `download_error_full_cleanup`: a failing download on a fresh
filesystem propagates the error, removes the temp dir and this task's own
lock, and leaves the module dir absent. -/
theorem download_error_full_cleanup_witness :
    (atomic_download "/c/m" "h" 1 "u" id "d"
        (fun _ fs => (.error (.otherErr "boom"), fs)) [⟨none, id⟩]
        ⟨[], []⟩).1 = .raised (.otherErr "boom") ∧
    (atomic_download "/c/m" "h" 1 "u" id "d"
        (fun _ fs => (.error (.otherErr "boom"), fs)) [⟨none, id⟩]
        ⟨[], []⟩).2.1.existsPath (_temp_download_dir id "/c/m" "u") = false ∧
    (atomic_download "/c/m" "h" 1 "u" id "d"
        (fun _ fs => (.error (.otherErr "boom"), fs)) [⟨none, id⟩]
        ⟨[], []⟩).2.1.existsPath "/c/m" = false ∧
    (atomic_download "/c/m" "h" 1 "u" id "d"
        (fun _ fs => (.error (.otherErr "boom"), fs)) [⟨none, id⟩]
        ⟨[], []⟩).2.1.lookupFile (_lock_filename id "/c/m") = none := by
  have h := download_error_full_cleanup "/c/m" "h" 1 "u" id "d"
    (fun _ fs => (.error (.otherErr "boom"), fs)) [⟨none, id⟩] ⟨[], []⟩
    (FS.mk [("/c/m.lock", "h.1.u")] [])
    (FS.mk [("/c/m.lock", "h.1.u")] [("/c/m.u.tmp", [])])
    [Act.lockWriteAttempt] (.otherErr "boom")
    rfl rfl rfl (by decide)
  exact ⟨h.1, h.2.1, h.2.2.1, h.2.2.2.1 (by decide)⟩

def Act.isRenameAttempt : Act → Bool
  | .renameAttempt _ => true
  | _ => false

theorem acquireLoop_countP_rename (module_dir lock_file lock_contents : String)
    (script : List AcqStep) (fs : FS) :
    (acquireLoop module_dir lock_file lock_contents script fs).2.countP
      Act.isRenameAttempt = 0 := by
  induction script generalizing fs with
  | nil => simp [acquireLoop]
  | cons step rest ih =>
    unfold acquireLoop
    cases hw : atomicWriteNoOverwrite fs lock_file lock_contents step.writeInj with
    | ok fs1 =>
      cases hc : checkModuleExists module_dir fs1 with
      | error e => simp [hc, Act.isRenameAttempt]
      | ok bb =>
        cases bb with
        | true => simp [hc, Act.isRenameAttempt]
        | false =>
          by_cases hex : fs1.existsPath module_dir <;>
            simp [hc, hex, Act.isRenameAttempt]
    | error e =>
      by_cases hperm : e.isPermanentLockFailure <;>
        simp [hperm, Act.isRenameAttempt, ih (step.interference fs)]

theorem cleanupAfter_countP_rename (lock_file tmp_dir lock_contents : String)
    (fs : FS) :
    (cleanupAfter lock_file tmp_dir lock_contents fs).2.countP
      Act.isRenameAttempt = 0 := by
  rcases cleanupAfter_trace_cases lock_file tmp_dir lock_contents fs with h | h <;>
    simp [h, Act.isRenameAttempt]

/-- Cleanup never touches a path distinct from both the temp dir and the
lock file: a present path stays present. -/
theorem cleanupAfter_preserves_present (lock_file tmp_dir lock_contents
    q : String) (fs : FS) (hqt : q ≠ tmp_dir) (hql : q ≠ lock_file)
    (h : fs.existsPath q = true) :
    (cleanupAfter lock_file tmp_dir lock_contents fs).1.existsPath q = true := by
  have hdel : (fs.deleteRecursively tmp_dir).existsPath q = true := by
    unfold FS.existsPath at h ⊢
    rw [FS.lookupFile_deleteRecursively_other _ _ _ hqt,
      FS.lookupDir_deleteRecursively_other _ _ _ hqt]
    exact h
  unfold cleanupAfter
  by_cases hc : ((fs.deleteRecursively tmp_dir).lookupFile lock_file).getD ""
      = lock_contents
  · rw [if_pos hc]
    have hres : ((fs.deleteRecursively tmp_dir).removeFile lock_file).existsPath
        q = true := by
      unfold FS.existsPath at hdel ⊢
      rw [FS.lookupFile_removeFile_other _ _ _ hql, FS.lookupDir_removeFile]
      exact hdel
    exact hres
  · rw [if_neg hc]
    exact hdel

/-- **C4.** For every successful download in `atomic_download`, exactly one
rename of the temporary directory is attempted, making `moduleDir` visible;
if that rename fails because the destination already exists (a concurrent
task finished first), the failure is swallowed, the local temporary
directory is discarded in cleanup, and the call still returns `moduleDir` as
success (in both cases `moduleDir` exists at the end, the temp dir does not,
and the result is success). -/
theorem successful_download_single_rename (module_dir host : String)
    (pid : Nat) (task_uid : String) (absP : String → String)
    (descriptorContent : String)
    (download_fn : String → FS → Except PyErr Unit × FS)
    (script : List AcqStep) (fs0 fsA fs1 : FS) (trA : List Act)
    (ents : List String)
    (hlm : _lock_filename absP module_dir ≠ module_dir)
    (htm : _temp_download_dir absP module_dir task_uid ≠ module_dir)
    (hcheck : checkModuleExists module_dir fs0 = .ok false)
    (hacq : acquireLoop module_dir (_lock_filename absP module_dir)
        (_lock_file_contents host pid task_uid) script fs0 =
      (.acquired fsA, trA))
    (hdl : download_fn (_temp_download_dir absP module_dir task_uid)
        (makeDirs fsA (_temp_download_dir absP module_dir task_uid)) =
      (.ok (), fs1))
    (hsrc : fs1.lookupDir (_temp_download_dir absP module_dir task_uid) =
      some ents) :
    (atomic_download module_dir host pid task_uid absP descriptorContent
        download_fn script fs0).1 = .done module_dir ∧
    (atomic_download module_dir host pid task_uid absP descriptorContent
        download_fn script fs0).2.2.countP Act.isRenameAttempt = 1 ∧
    (atomic_download module_dir host pid task_uid absP descriptorContent
        download_fn script fs0).2.1.existsPath
        (_temp_download_dir absP module_dir task_uid) = false ∧
    (atomic_download module_dir host pid task_uid absP descriptorContent
        download_fn script fs0).2.1.existsPath module_dir = true := by
  have htrA : trA.countP Act.isRenameAttempt = 0 := by
    have h0 := acquireLoop_countP_rename module_dir
      (_lock_filename absP module_dir) (_lock_file_contents host pid task_uid)
      script fs0
    rw [hacq] at h0
    exact h0
  by_cases hdst : (fs1.setFile (_module_descriptor_file module_dir)
      descriptorContent).existsPath module_dir = true
  · have hbody : afterLock module_dir
        (_temp_download_dir absP module_dir task_uid) descriptorContent
        download_fn fsA =
        (.ok (),
          fs1.setFile (_module_descriptor_file module_dir) descriptorContent,
          [Act.makeTmpDir, Act.downloadCall, Act.writeDescriptor,
            Act.renameAttempt true]) := by
      simp [afterLock, hdl, renameNoOverwrite, hdst]
    have hrun : atomic_download module_dir host pid task_uid absP
        descriptorContent download_fn script fs0 =
        (.done module_dir,
          (cleanupAfter (_lock_filename absP module_dir)
            (_temp_download_dir absP module_dir task_uid)
            (_lock_file_contents host pid task_uid)
            (fs1.setFile (_module_descriptor_file module_dir)
              descriptorContent)).1,
          trA ++ [Act.makeTmpDir, Act.downloadCall, Act.writeDescriptor,
              Act.renameAttempt true] ++
            (cleanupAfter (_lock_filename absP module_dir)
              (_temp_download_dir absP module_dir task_uid)
              (_lock_file_contents host pid task_uid)
              (fs1.setFile (_module_descriptor_file module_dir)
                descriptorContent)).2) := by
      simp [atomic_download, hcheck, hacq, hbody]
    refine ⟨by rw [hrun], ?_, ?_, ?_⟩
    · rw [hrun]
      simp [List.countP_append, htrA, Act.isRenameAttempt,
        cleanupAfter_countP_rename]
    · rw [hrun]
      exact cleanupAfter_tmp_absent _ _ _ _
    · rw [hrun]
      exact cleanupAfter_preserves_present _ _ _ _ _
        (Ne.symm htm) (Ne.symm hlm) hdst
  · have hdstf : (fs1.setFile (_module_descriptor_file module_dir)
        descriptorContent).existsPath module_dir = false := by
      cases hx : (fs1.setFile (_module_descriptor_file module_dir)
          descriptorContent).existsPath module_dir
      · rfl
      · exact absurd hx hdst
    have hsrc3 : (fs1.setFile (_module_descriptor_file module_dir)
        descriptorContent).lookupDir
        (_temp_download_dir absP module_dir task_uid) = some ents := by
      rw [FS.lookupDir_setFile]
      exact hsrc
    have hbody : afterLock module_dir
        (_temp_download_dir absP module_dir task_uid) descriptorContent
        download_fn fsA =
        (.ok (),
          ((fs1.setFile (_module_descriptor_file module_dir)
              descriptorContent).deleteRecursively
            (_temp_download_dir absP module_dir task_uid)).setDir
            module_dir ents,
          [Act.makeTmpDir, Act.downloadCall, Act.writeDescriptor,
            Act.renameAttempt false]) := by
      simp [afterLock, hdl, renameNoOverwrite, hdstf, hsrc3]
    have hrun : atomic_download module_dir host pid task_uid absP
        descriptorContent download_fn script fs0 =
        (.done module_dir,
          (cleanupAfter (_lock_filename absP module_dir)
            (_temp_download_dir absP module_dir task_uid)
            (_lock_file_contents host pid task_uid)
            (((fs1.setFile (_module_descriptor_file module_dir)
                descriptorContent).deleteRecursively
              (_temp_download_dir absP module_dir task_uid)).setDir
              module_dir ents)).1,
          trA ++ [Act.makeTmpDir, Act.downloadCall, Act.writeDescriptor,
              Act.renameAttempt false] ++
            (cleanupAfter (_lock_filename absP module_dir)
              (_temp_download_dir absP module_dir task_uid)
              (_lock_file_contents host pid task_uid)
              (((fs1.setFile (_module_descriptor_file module_dir)
                  descriptorContent).deleteRecursively
                (_temp_download_dir absP module_dir task_uid)).setDir
                module_dir ents)).2) := by
      simp [atomic_download, hcheck, hacq, hbody]
    have hpresent : (((fs1.setFile (_module_descriptor_file module_dir)
        descriptorContent).deleteRecursively
        (_temp_download_dir absP module_dir task_uid)).setDir
        module_dir ents).existsPath module_dir = true := by
      unfold FS.existsPath
      rw [FS.lookupDir_setDir_self]
      simp
    refine ⟨by rw [hrun], ?_, ?_, ?_⟩
    · rw [hrun]
      simp [List.countP_append, htrA, Act.isRenameAttempt,
        cleanupAfter_countP_rename]
    · rw [hrun]
      exact cleanupAfter_tmp_absent _ _ _ _
    · rw [hrun]
      exact cleanupAfter_preserves_present _ _ _ _ _
        (Ne.symm htm) (Ne.symm hlm) hpresent

/-- Witness for `successful_download_single_rename`: a successful download
on a fresh filesystem performs one rename, publishes the module dir, and
discards the temp dir. -/
theorem successful_download_single_rename_witness :
    (atomic_download "/c/m" "h" 1 "u" id "d"
        (fun t fs => (.ok (), fs.setDir t ["saved_model.pb"])) [⟨none, id⟩]
        ⟨[], []⟩).1 = .done "/c/m" ∧
    (atomic_download "/c/m" "h" 1 "u" id "d"
        (fun t fs => (.ok (), fs.setDir t ["saved_model.pb"])) [⟨none, id⟩]
        ⟨[], []⟩).2.2.countP Act.isRenameAttempt = 1 ∧
    (atomic_download "/c/m" "h" 1 "u" id "d"
        (fun t fs => (.ok (), fs.setDir t ["saved_model.pb"])) [⟨none, id⟩]
        ⟨[], []⟩).2.1.existsPath (_temp_download_dir id "/c/m" "u") = false ∧
    (atomic_download "/c/m" "h" 1 "u" id "d"
        (fun t fs => (.ok (), fs.setDir t ["saved_model.pb"])) [⟨none, id⟩]
        ⟨[], []⟩).2.1.existsPath "/c/m" = true :=
  successful_download_single_rename "/c/m" "h" 1 "u" id "d"
    (fun t fs => (.ok (), fs.setDir t ["saved_model.pb"])) [⟨none, id⟩]
    ⟨[], []⟩ (FS.mk [("/c/m.lock", "h.1.u")] [])
    (FS.mk [("/c/m.lock", "h.1.u")] [("/c/m.u.tmp", ["saved_model.pb"])])
    [Act.lockWriteAttempt] ["saved_model.pb"]
    (by decide) (by decide) rfl rfl rfl rfl

/-! ## Cache directory resolution: `tfhub_cache_dir` (lines 70-110) -/

/-- Python truthiness for an optional string setting: `None` and `""` are
falsy, any other string is truthy. -/
def truthy : Option String → Bool
  | none => false
  | some s => s ≠ ""

/-- Python's `a or b` on optional string settings: the first operand when
truthy, otherwise the second. -/
def pyOr (a b : Option String) : Option String :=
  if truthy a then a else b

/-- `get_env_setting(env_var, flag_name)` (lines 70-78):
`os.getenv(env_var, "") or FLAGS[flag_name].value`.  `envVal` is the
environment variable's value with `""` for unset (as `os.getenv` returns),
`flagVal` the flag value (`none` for the `None` default). -/
def get_env_setting (envVal : String) (flagVal : Option String) :
    Option String :=
  pyOr (some envVal) flagVal

/-- `os.path.join(a, b)` for the two-component call at line 106, modelled
from the POSIX rules: an absolute second component wins; otherwise the parts
are joined with exactly one separator. -/
def osPathJoin (a b : String) : String :=
  if b.startsWith "/" then b
  else if a = "" then b
  else if a.endsWith "/" then a ++ b
  else a ++ "/" ++ b

/-- `tfhub_cache_dir(default_cache_dir, use_temp)` (lines 81-110), with the
`TFHUB_CACHE_DIR` environment value, the `--tfhub_cache_dir` flag value and
the system temp directory passed in explicitly. -/
def tfhub_cache_dir (envVal : String) (flagVal : Option String)
    (default_cache_dir : Option String) (use_temp : Bool) (tempdir : String) :
    Option String :=
  let cache_dir := pyOr (get_env_setting envVal flagVal) default_cache_dir
  if !truthy cache_dir && use_temp then
    some (osPathJoin tempdir "tfhub_modules")
  else cache_dir

/-- **C10.** Cache-directory resolution precedence: `tfhub_cache_dir`
returns the `TFHUB_CACHE_DIR` environment variable when non-empty; otherwise
the `--tfhub_cache_dir` flag value when set (to a non-empty string, the only
kind of value Python truthiness keeps); otherwise `default_cache_dir` when
set; and when all three are unset and `use_temp` is true it returns the
system temp directory joined with `"tfhub_modules"` — otherwise it returns
no cache directory (a falsy value). -/
theorem cache_dir_resolution_precedence (envVal : String)
    (flagVal default_cache_dir : Option String) (use_temp : Bool)
    (tempdir : String) :
    (envVal ≠ "" →
      tfhub_cache_dir envVal flagVal default_cache_dir use_temp tempdir =
        some envVal) ∧
    (envVal = "" → truthy flagVal = true →
      tfhub_cache_dir envVal flagVal default_cache_dir use_temp tempdir =
        flagVal) ∧
    (envVal = "" → truthy flagVal = false → truthy default_cache_dir = true →
      tfhub_cache_dir envVal flagVal default_cache_dir use_temp tempdir =
        default_cache_dir) ∧
    (envVal = "" → truthy flagVal = false → truthy default_cache_dir = false →
      use_temp = true →
      tfhub_cache_dir envVal flagVal default_cache_dir use_temp tempdir =
        some (osPathJoin tempdir "tfhub_modules")) ∧
    (envVal = "" → truthy flagVal = false → truthy default_cache_dir = false →
      use_temp = false →
      truthy (tfhub_cache_dir envVal flagVal default_cache_dir use_temp
        tempdir) = false) := by
  refine ⟨?_, ?_, ?_, ?_, ?_⟩
  · intro henv
    have htr : truthy (some envVal) = true := by simp [truthy, henv]
    simp [tfhub_cache_dir, get_env_setting, pyOr, htr]
  · intro henv hflag
    subst henv
    have h0 : truthy (some "") = false := rfl
    simp [tfhub_cache_dir, get_env_setting, pyOr, h0, hflag]
  · intro henv hflag hdef
    subst henv
    have h0 : truthy (some "") = false := rfl
    simp [tfhub_cache_dir, get_env_setting, pyOr, h0, hflag, hdef]
  · intro henv hflag hdef huse
    subst henv huse
    have h0 : truthy (some "") = false := rfl
    simp [tfhub_cache_dir, get_env_setting, pyOr, h0, hflag, hdef]
  · intro henv hflag hdef huse
    subst henv huse
    have h0 : truthy (some "") = false := rfl
    simp [tfhub_cache_dir, get_env_setting, pyOr, h0, hflag, hdef]

/-- Witness for `cache_dir_resolution_precedence`: a non-empty environment
value wins, and with everything unset plus `use_temp` the temp-dir fallback
is used. -/
theorem cache_dir_resolution_precedence_witness :
    tfhub_cache_dir "/env/cache" (some "/flag/cache") (some "/def/cache")
        false "/tmp" = some "/env/cache" ∧
    tfhub_cache_dir "" none none true "/tmp" =
      some (osPathJoin "/tmp" "tfhub_modules") :=
  ⟨(cache_dir_resolution_precedence "/env/cache" (some "/flag/cache")
      (some "/def/cache") false "/tmp").1 (by decide),
    (cache_dir_resolution_precedence "" none none true "/tmp").2.2.2.1
      rfl rfl rfl rfl⟩
